import Mathlib

/-!
Verification of the exchange-rate page's data-shaping pipeline
(`getServerSideProps`, the axis-domain calculation and the language toggle
in `src/pages/index.tsx`), shallowly embedded in Lean.

JavaScript numbers are modelled by `JsNum`: a finite rational, the two
infinities, or NaN.  Rate strings are parsed by a model of `parseFloat`
restricted to optional-sign decimal literals (the only shapes the pipeline
meets); everything unparseable yields NaN, exactly as `parseFloat` does.
Timestamps are ISO-8601 `YYYY-MM-DDTHH:MM:SSZ` strings; following the
spec's stated no-timezone-conversion reading, the `Date` field getters
(`getMonth`, `getDate`, `getHours`, `getMinutes`) are modelled as the
instant's calendar fields as written in the string.
-/

/-- Model of a JavaScript number as produced by this pipeline: a finite
rational, `Infinity`, `-Infinity`, or `NaN`. -/
inductive JsNum where
  | finite (q : ℚ)
  | posInf
  | negInf
  | nan
deriving DecidableEq, Repr

/-- `true` exactly on finite values. -/
def JsNum.isFinite : JsNum → Bool
  | .finite _ => true
  | _ => false

/-- The rational carried by a finite value (`0` on the non-finite ones). -/
def JsNum.toQ : JsNum → ℚ
  | .finite q => q
  | _ => 0

/-- A raw JSON rate field: the API may send a string or a number. -/
inductive RawValue where
  | str (s : String)
  | num (q : ℚ)
deriving DecidableEq, Repr

/-- A raw record of the `/rates/last10` response body. -/
structure RawRateRecord where
  buying_rate : RawValue
  selling_rate : RawValue
  timestamp : String
deriving DecidableEq, Repr

/-- The bilingual display times computed on the server. -/
structure FormattedTime where
  en : String
  zh : String
deriving DecidableEq, Repr

/-- A transformed record as returned in the page props
(`ExchangeRateData` in the source). -/
structure ExchangeRateData where
  buying_rate : JsNum
  selling_rate : JsNum
  timestamp : String
  formattedTime : FormattedTime
deriving DecidableEq, Repr

/-- Numeric value of a decimal digit character. -/
def digitVal (c : Char) : ℕ := c.toNat - 48

/-- Natural number denoted by a digit run (most significant first). -/
def digitsToNat (ds : List Char) : ℕ :=
  ds.foldl (fun a c => 10 * a + digitVal c) 0

/-- Model of `parseFloat` on a string: optional sign, then a decimal
literal `digits[.digits]`; trailing garbage is ignored (prefix parsing)
and a string with no leading numeric prefix yields NaN, exactly as
`parseFloat` behaves on the inputs this pipeline can meet. -/
def parseFloatStr (s : String) : JsNum :=
  let cs := s.toList
  let sc : ℤ × List Char :=
    match cs with
    | '-' :: r => (-1, r)
    | '+' :: r => (1, r)
    | _ => (1, cs)
  let ip := sc.2.takeWhile Char.isDigit
  let rest := sc.2.dropWhile Char.isDigit
  match rest with
  | '.' :: r =>
    let fp := r.takeWhile Char.isDigit
    if ip.isEmpty && fp.isEmpty then JsNum.nan
    else JsNum.finite (mkRat
      (sc.1 * (digitsToNat ip * 10 ^ fp.length + digitsToNat fp))
      (10 ^ fp.length))
  | _ =>
    if ip.isEmpty then JsNum.nan
    else JsNum.finite (mkRat (sc.1 * digitsToNat ip) 1)

/-- `parseFloat(item.buying_rate)` on a raw JSON field: a number coerces
to itself, a string goes through the string parser. -/
def parseFloatVal : RawValue → JsNum
  | .num q => .finite q
  | .str s => parseFloatStr s

/-- Calendar fields of a parsed timestamp. -/
structure DateTime where
  year : ℕ
  month : ℕ
  day : ℕ
  hour : ℕ
  minute : ℕ
  second : ℕ
deriving DecidableEq, Repr

/-- Model of `new Date(timestamp)` on the API's `YYYY-MM-DDTHH:MM:SSZ`
strings, exposing the instant's calendar fields as given (the spec's
no-timezone-conversion reading of the `get*` calls); any other shape or
out-of-range field is the Invalid Date case, `none`. -/
def parseTimestamp (s : String) : Option DateTime :=
  match s.toList with
  | [y1, y2, y3, y4, '-', m1, m2, '-', d1, d2, 'T',
     h1, h2, ':', n1, n2, ':', s1, s2, 'Z'] =>
    if [y1, y2, y3, y4, m1, m2, d1, d2, h1, h2, n1, n2, s1, s2].all
        Char.isDigit then
      let dt : DateTime :=
        { year := digitsToNat [y1, y2, y3, y4]
          month := digitsToNat [m1, m2]
          day := digitsToNat [d1, d2]
          hour := digitsToNat [h1, h2]
          minute := digitsToNat [n1, n2]
          second := digitsToNat [s1, s2] }
      if 1 ≤ dt.month && dt.month ≤ 12 && 1 ≤ dt.day && dt.day ≤ 31 &&
          dt.hour ≤ 23 && dt.minute ≤ 59 && dt.second ≤ 59 then
        some dt
      else none
    else none
  | _ => none

/-- `date.toLocaleString('en-US', \x7b month: 'short' \x7d)`: the 3-letter
English month abbreviation. -/
def monthAbbrev : ℕ → String
  | 1 => "Jan" | 2 => "Feb" | 3 => "Mar" | 4 => "Apr"
  | 5 => "May" | 6 => "Jun" | 7 => "Jul" | 8 => "Aug"
  | 9 => "Sep" | 10 => "Oct" | 11 => "Nov" | 12 => "Dec"
  | _ => ""

/-- `n.toString().padStart(2, '0')`. -/
def pad2 (n : ℕ) : String :=
  if n < 10 then "0" ++ toString n else toString n

/-- The English display time `` `${monthEn}-${dayEn} ${hoursEn}:${minutesEn}` ``. -/
def fmtEn (dt : DateTime) : String :=
  monthAbbrev dt.month ++ "-" ++ pad2 dt.day ++ " " ++
    pad2 dt.hour ++ ":" ++ pad2 dt.minute

/-- The Chinese display time `` `${monthZh}月${dayZh}日 ${hoursZh}:${minutesZh}` ``. -/
def fmtZh (dt : DateTime) : String :=
  toString dt.month ++ "月" ++ toString dt.day ++ "日 " ++
    pad2 dt.hour ++ ":" ++ pad2 dt.minute

/-- The body of the `.map` callback in `getServerSideProps`: parse both
rates with `parseFloat`, derive both display times from the timestamp,
keep the source timestamp (the `...item` spread). -/
def formatRecord (item : RawRateRecord) : ExchangeRateData :=
  { buying_rate := parseFloatVal item.buying_rate
    selling_rate := parseFloatVal item.selling_rate
    timestamp := item.timestamp
    formattedTime :=
      match parseTimestamp item.timestamp with
      | some dt => { en := fmtEn dt, zh := fmtZh dt }
      | none => { en := "Invalid Date-NaN NaN:NaN", zh := "NaN月NaN日 NaN:NaN" } }

/-- The `.reverse()` call on the mapped array (line 94 of the source). -/
def reorder (l : List ExchangeRateData) : List ExchangeRateData :=
  l.reverse

/-- The whole transform step of `getServerSideProps`: map `formatRecord`
over the raw array, then reverse. -/
def transform (raw : List RawRateRecord) : List ExchangeRateData :=
  reorder (raw.map formatRecord)

/-- A sortable key for a timestamp string: encodes the calendar fields
lexicographically, so comparing keys compares instants
(unparseable timestamps all map to 0). -/
def tsKey (s : String) : ℕ :=
  match parseTimestamp s with
  | some dt =>
    ((((dt.year * 13 + dt.month) * 32 + dt.day) * 24 + dt.hour) * 60 +
      dt.minute) * 60 + dt.second
  | none => 0

/-- Output order the spec requires: timestamps non-decreasing
(oldest to newest, left to right). -/
def Chronological (l : List ExchangeRateData) : Prop :=
  l.Chain' fun a b => tsKey a.timestamp ≤ tsKey b.timestamp

/-- Input order the API delivers: newest first, timestamps non-increasing. -/
def NewestFirst (l : List RawRateRecord) : Prop :=
  l.Chain' fun a b => tsKey b.timestamp ≤ tsKey a.timestamp

/-- All rate fields of every record parse to finite numbers. -/
def NumericRates (l : List RawRateRecord) : Prop :=
  ∀ r ∈ l, (parseFloatVal r.buying_rate).isFinite = true ∧
    (parseFloatVal r.selling_rate).isFinite = true

/-- Model of `Math.min(a, b)`: NaN absorbs, infinities compare below and
above every finite value. -/
def jsMin2 : JsNum → JsNum → JsNum
  | .nan, _ => .nan
  | _, .nan => .nan
  | .negInf, _ => .negInf
  | _, .negInf => .negInf
  | .posInf, b => b
  | a, .posInf => a
  | .finite p, .finite q => .finite (min p q)

/-- Model of `Math.max(a, b)`: NaN absorbs, infinities compare below and
above every finite value. -/
def jsMax2 : JsNum → JsNum → JsNum
  | .nan, _ => .nan
  | _, .nan => .nan
  | .posInf, _ => .posInf
  | _, .posInf => .posInf
  | .negInf, b => b
  | a, .negInf => a
  | .finite p, .finite q => .finite (max p q)

/-- `Math.min(...args)`: fold of the binary min, `Infinity` on no
arguments. -/
def jsFoldMin (l : List JsNum) : JsNum :=
  l.foldr jsMin2 .posInf

/-- `Math.max(...args)`: fold of the binary max, `-Infinity` on no
arguments. -/
def jsFoldMax (l : List JsNum) : JsNum :=
  l.foldr jsMax2 .negInf

/-- Multiplication of a JS number by a positive rational constant
(`* 0.998` and `* 1.002` in the source; positivity keeps the sign of the
infinities). -/
def jsMul (a : JsNum) (q : ℚ) : JsNum :=
  match a with
  | .finite p => .finite (p * q)
  | .posInf => .posInf
  | .negInf => .negInf
  | .nan => .nan

/-- `Math.floor` on a JS number. -/
def jsFloor : JsNum → JsNum
  | .finite p => .finite ((⌊p⌋ : ℤ) : ℚ)
  | .posInf => .posInf
  | .negInf => .negInf
  | .nan => .nan

/-- `Math.ceil` on a JS number. -/
def jsCeil : JsNum → JsNum
  | .finite p => .finite ((⌈p⌉ : ℤ) : ℚ)
  | .posInf => .posInf
  | .negInf => .negInf
  | .nan => .nan

/-- The padding factor `0.998`. -/
def c998 : ℚ := 998 / 1000

/-- The padding factor `1.002`. -/
def c1002 : ℚ := 1002 / 1000

/-- The spread arguments of the two `Math.min`/`Math.max` calls: all
buying rates followed by all selling rates of the batch. -/
def ratePool (rs : List ExchangeRateData) : List JsNum :=
  rs.map (·.buying_rate) ++ rs.map (·.selling_rate)

/-- The axis-domain calculation of `CurrencyExchangeGraph`:
`minRate = Math.floor(Math.min(...pool) * 0.998)` and
`maxRate = Math.ceil(Math.max(...pool) * 1.002)`. -/
def computeDomain (rs : List ExchangeRateData) : JsNum × JsNum :=
  (jsFloor (jsMul (jsFoldMin (ratePool rs)) c998),
   jsCeil (jsMul (jsFoldMax (ratePool rs)) c1002))

/-- Minimum of a nonempty list of rationals (`0` on the empty list);
the spec-level "minimum observed rate". -/
def qListMin : List ℚ → ℚ
  | [] => 0
  | [q] => q
  | q :: r => min q (qListMin r)

/-- Maximum of a nonempty list of rationals (`0` on the empty list);
the spec-level "maximum observed rate". -/
def qListMax : List ℚ → ℚ
  | [] => 0
  | [q] => q
  | q :: r => max q (qListMax r)

/-- The spec's error for an empty batch given to the domain calculation. -/
inductive DomainError where
  | emptyDataset
deriving DecidableEq, Repr

/-- Modelled from the spec: the §4.3 `computeDomain` contract, which the
source does not implement — it reports `EmptyDatasetError` on an empty
record sequence and otherwise agrees with the code's calculation. -/
def computeDomainSpec (rs : List ExchangeRateData) :
    Except DomainError (JsNum × JsNum) :=
  if rs.isEmpty then .error .emptyDataset else .ok (computeDomain rs)

/-- The two UI locales. -/
inductive Lang where
  | en
  | zh
deriving DecidableEq, Repr

/-- `toggleLanguage`: `setLanguage(language === 'en' ? 'zh' : 'en')`. -/
def toggleLanguage : Lang → Lang
  | .en => .zh
  | .zh => .en

/-- What the outbound fetch can come back with: an HTTP response with a
status and a parsed JSON body, or a network failure. -/
inductive FetchOutcome where
  | response (status : ℕ) (body : List RawRateRecord)
  | networkFailure

/-- `response.ok`: status in the 2xx range. -/
def statusOk (s : ℕ) : Bool :=
  200 ≤ s && s ≤ 299

/-- The message of the error thrown on a non-ok response
(`` `API request failed with status ${response.status}` ``). -/
def fetchFailMsg (s : ℕ) : String :=
  "API request failed with status " ++ toString s

/-- The generic page-level error string returned from the catch block. -/
def pageErrorMsg : String :=
  "Failed to fetch exchange rate data. Please try again later."

/-- The fetch-and-validate step inside the `try` block: a non-ok status
throws the status-carrying error, otherwise the raw body is handed to the
transform; a network failure is the rejected-fetch error. -/
def fetchStep : FetchOutcome → Except String (List RawRateRecord)
  | .networkFailure => .error "fetch failed"
  | .response s body =>
    if statusOk s then .ok body else .error (fetchFailMsg s)

/-- The props `getServerSideProps` resolves with. -/
structure PageProps where
  exchangeData : List ExchangeRateData
  error : Option String
deriving DecidableEq, Repr

/-- `getServerSideProps` as a function of the fetch outcome: on success
the transformed data with a null error, on any thrown error the empty
array and the generic message. -/
def getServerSideProps (o : FetchOutcome) : PageProps :=
  match fetchStep o with
  | .ok data => { exchangeData := transform data, error := none }
  | .error _ => { exchangeData := [], error := some pageErrorMsg }

/-- A chart row after the per-language projection of `formattedTime`. -/
structure LocalizedData where
  buying_rate : JsNum
  selling_rate : JsNum
  timestamp : String
  formattedTime : String
deriving DecidableEq, Repr

/-- `item.formattedTime[language]`. -/
def projectLocale : Lang → FormattedTime → String
  | .en, t => t.en
  | .zh, t => t.zh

/-- The `localizedData` mapping of the component. -/
def localize (lang : Lang) (rs : List ExchangeRateData) :
    List LocalizedData :=
  rs.map fun r =>
    { buying_rate := r.buying_rate
      selling_rate := r.selling_rate
      timestamp := r.timestamp
      formattedTime := projectLocale lang r.formattedTime }

/-- What the component renders: either the error panel or the chart with
its computed axis domain and localized rows. -/
inductive Rendered where
  | errorPanel (msg : String)
  | chart (domain : JsNum × JsNum) (rows : List LocalizedData)
deriving DecidableEq, Repr

/-- JS truthiness of the `error` prop (`null` and `""` are falsy). -/
def isTruthy : Option String → Bool
  | none => false
  | some s => !s.isEmpty

/-- The `CurrencyExchangeGraph` component: the early return renders the
error panel whenever `error` is truthy; otherwise the chart is rendered
from the computed domain and the localized data. -/
def CurrencyExchangeGraph (p : PageProps) (lang : Lang) : Rendered :=
  if isTruthy p.error then .errorPanel (p.error.getD "")
  else .chart (computeDomain p.exchangeData) (localize lang p.exchangeData)

/-- A raw batch in the API's newest-first order, all rates numeric. -/
def c1good : List RawRateRecord :=
  [{ buying_rate := .str "4.65", selling_rate := .str "4.90",
     timestamp := "2024-03-02T09:05:00Z" },
   { buying_rate := .str "4.62", selling_rate := .str "4.88",
     timestamp := "2024-03-01T09:05:00Z" }]

/-- A raw batch that is already oldest-first (not newest-first), all rates
numeric. -/
def c1bad : List RawRateRecord :=
  [{ buying_rate := .str "4.62", selling_rate := .str "4.88",
     timestamp := "2024-03-01T09:05:00Z" },
   { buying_rate := .str "4.65", selling_rate := .str "4.90",
     timestamp := "2024-03-02T09:05:00Z" }]

/-- The spec's worked formatting example. -/
def c3raw : RawRateRecord :=
  { buying_rate := .str "4.62", selling_rate := .str "4.88",
    timestamp := "2024-03-01T09:05:00Z" }

/-- A raw record whose buying rate is not numeric. -/
def c4raw : RawRateRecord :=
  { buying_rate := .str "abc", selling_rate := .str "4.88",
    timestamp := "2024-03-01T09:05:00Z" }

/-- The spec's worked domain example: buying rates 4.60 and 4.65, selling
rates 4.85 and 4.90. -/
def c2batch : List ExchangeRateData :=
  [{ buying_rate := .finite (46/10), selling_rate := .finite (485/100),
     timestamp := "2024-03-01T09:05:00Z",
     formattedTime := { en := "Mar-01 09:05", zh := "3月1日 09:05" } },
   { buying_rate := .finite (465/100), selling_rate := .finite (49/10),
     timestamp := "2024-03-01T10:05:00Z",
     formattedTime := { en := "Mar-01 10:05", zh := "3月1日 10:05" } }]


/-- A JS number that tests finite is a `finite`. -/
lemma JsNum.exists_of_isFinite {x : JsNum} (h : x.isFinite = true) :
    ∃ q, x = JsNum.finite q := by
  cases x with
  | finite p => exact ⟨p, rfl⟩
  | posInf => simp [JsNum.isFinite] at h
  | negInf => simp [JsNum.isFinite] at h
  | nan => simp [JsNum.isFinite] at h

/-- On a nonempty all-finite argument list, the `Math.min` fold is the
finite minimum of the carried rationals. -/
lemma jsFoldMin_finite (l : List JsNum) (hne : l ≠ [])
    (hf : ∀ x ∈ l, x.isFinite = true) :
    jsFoldMin l = JsNum.finite (qListMin (l.map JsNum.toQ)) := by
  induction l with
  | nil => exact absurd rfl hne
  | cons x xs ih =>
    obtain ⟨q, rfl⟩ :=
      JsNum.exists_of_isFinite (hf x (List.mem_cons_self x xs))
    cases xs with
    | nil => rfl
    | cons y t =>
      have ih2 := ih (by simp) fun z hz => hf z (List.mem_cons_of_mem _ hz)
      have e1 : jsFoldMin (JsNum.finite q :: y :: t) =
          jsMin2 (JsNum.finite q) (jsFoldMin (y :: t)) := rfl
      rw [e1, ih2]
      rfl

/-- On a nonempty all-finite argument list, the `Math.max` fold is the
finite maximum of the carried rationals. -/
lemma jsFoldMax_finite (l : List JsNum) (hne : l ≠ [])
    (hf : ∀ x ∈ l, x.isFinite = true) :
    jsFoldMax l = JsNum.finite (qListMax (l.map JsNum.toQ)) := by
  induction l with
  | nil => exact absurd rfl hne
  | cons x xs ih =>
    obtain ⟨q, rfl⟩ :=
      JsNum.exists_of_isFinite (hf x (List.mem_cons_self x xs))
    cases xs with
    | nil => rfl
    | cons y t =>
      have ih2 := ih (by simp) fun z hz => hf z (List.mem_cons_of_mem _ hz)
      have e1 : jsFoldMax (JsNum.finite q :: y :: t) =
          jsMax2 (JsNum.finite q) (jsFoldMax (y :: t)) := rfl
      rw [e1, ih2]
      rfl

/-- The minimum of a nonempty list is one of its entries. -/
lemma qListMin_mem (l : List ℚ) (h : l ≠ []) : qListMin l ∈ l := by
  induction l with
  | nil => exact absurd rfl h
  | cons q r ih =>
    cases r with
    | nil => exact List.mem_singleton.mpr rfl
    | cons a t =>
      have e : qListMin (q :: a :: t) = min q (qListMin (a :: t)) := rfl
      rcases min_cases q (qListMin (a :: t)) with ⟨e2, _⟩ | ⟨e2, _⟩
      · rw [e, e2]; exact List.mem_cons_self _ _
      · rw [e, e2]; exact List.mem_cons_of_mem _ (ih (by simp))

/-- The maximum of a nonempty list is one of its entries. -/
lemma qListMax_mem (l : List ℚ) (h : l ≠ []) : qListMax l ∈ l := by
  induction l with
  | nil => exact absurd rfl h
  | cons q r ih =>
    cases r with
    | nil => exact List.mem_singleton.mpr rfl
    | cons a t =>
      have e : qListMax (q :: a :: t) = max q (qListMax (a :: t)) := rfl
      rcases max_cases q (qListMax (a :: t)) with ⟨e2, _⟩ | ⟨e2, _⟩
      · rw [e, e2]; exact List.mem_cons_self _ _
      · rw [e, e2]; exact List.mem_cons_of_mem _ (ih (by simp))

/-- The list minimum is a lower bound of the entries. -/
lemma qListMin_le_of_mem {l : List ℚ} {x : ℚ} (h : x ∈ l) :
    qListMin l ≤ x := by
  induction l with
  | nil => simp at h
  | cons q r ih =>
    cases r with
    | nil =>
      rw [List.mem_singleton] at h
      subst h
      exact le_of_eq rfl
    | cons a t =>
      have e : qListMin (q :: a :: t) = min q (qListMin (a :: t)) := rfl
      rw [e]
      rcases List.mem_cons.mp h with rfl | hx
      · exact min_le_left _ _
      · exact le_trans (min_le_right _ _) (ih hx)

/-- A nonempty batch has a nonempty rate pool. -/
lemma ratePool_ne_nil (rs : List ExchangeRateData) (h : rs ≠ []) :
    ratePool rs ≠ [] := by
  cases rs with
  | nil => exact absurd rfl h
  | cons r t => simp [ratePool]

/-- On a nonempty all-finite batch, the code's domain calculation is
exactly floor of 0.998 times the pool minimum and ceil of 1.002 times the
pool maximum. -/
lemma computeDomain_finite_eq (rs : List ExchangeRateData) (hne : rs ≠ [])
    (hf : ∀ x ∈ ratePool rs, x.isFinite = true) :
    computeDomain rs =
      (JsNum.finite ((⌊qListMin ((ratePool rs).map JsNum.toQ) * c998⌋ : ℤ) : ℚ),
       JsNum.finite ((⌈qListMax ((ratePool rs).map JsNum.toQ) * c1002⌉ : ℤ) : ℚ)) := by
  have hp : ratePool rs ≠ [] := ratePool_ne_nil rs hne
  unfold computeDomain
  rw [jsFoldMin_finite _ hp hf, jsFoldMax_finite _ hp hf]
  rfl

/-- Strictly separated rationals have strictly separated floor and ceil. -/
lemma floor_lt_ceil_of_lt {x y : ℚ} (h : x < y) : ⌊x⌋ < ⌈y⌉ := by
  have h1 : ((⌊x⌋ : ℤ) : ℚ) ≤ x := Int.floor_le x
  have h2 : y ≤ ((⌈y⌉ : ℤ) : ℚ) := Int.le_ceil y
  exact_mod_cast lt_of_le_of_lt h1 (lt_of_lt_of_le h h2)

/-- The transform preserves array length. -/
lemma transform_length (raw : List RawRateRecord) :
    (transform raw).length = raw.length := by
  simp [transform, reorder]

/-- Reversing a newest-first mapped array yields a chronological array:
the map keeps each record's source timestamp. -/
lemma transform_chrono (raw : List RawRateRecord) (h : NewestFirst raw) :
    Chronological (transform raw) := by
  show (raw.map formatRecord).reverse.Chain'
    fun a b => tsKey a.timestamp ≤ tsKey b.timestamp
  rw [List.chain'_reverse, List.chain'_map]
  exact h

/-- C1 (amended): for every non-empty newest-first raw array with numeric
rate fields, the transform's output length equals the input length and the
output timestamps are non-decreasing (chronological). -/
theorem transform_length_chrono (raw : List RawRateRecord)
    (hne : raw ≠ []) (hnum : NumericRates raw) (hnf : NewestFirst raw) :
    (transform raw).length = raw.length ∧ Chronological (transform raw) :=
  ⟨transform_length raw, transform_chrono raw hnf⟩

/-- C1 witness: the amended claim evaluated on a concrete two-record
newest-first numeric batch. -/
theorem transform_length_chrono_witness :
    (transform c1good).length = c1good.length ∧
    Chronological (transform c1good) :=
  transform_length_chrono c1good (by simp [c1good])
    (by simp only [NumericRates]; decide)
    (by simp [NewestFirst, c1good, List.chain'_cons, List.chain'_singleton]
        decide)

/-- C1 counterexample: on a non-empty numeric raw array that is not
newest-first, the transform's output is not chronological — the claim as
stated, quantified over every such array, is false. -/
theorem transform_order_counterexample :
    c1bad ≠ [] ∧ NumericRates c1bad ∧ ¬ Chronological (transform c1bad) := by
  refine ⟨by simp [c1bad], by simp only [NumericRates]; decide, fun h => ?_⟩
  have h2 : NewestFirst c1bad :=
    (List.chain'_map _).mp (List.chain'_reverse.mp h)
  have h3 := (List.chain'_cons.mp h2).1
  revert h3
  decide

/-- C2: on every non-empty batch of finite-rate records, the computed axis
domain is floor of 0.998 times the minimum and ceil of 1.002 times the
maximum over the combined pool of buying and selling rates. -/
theorem computeDomain_padding (rs : List ExchangeRateData) (hne : rs ≠ [])
    (hf : ∀ x ∈ ratePool rs, x.isFinite = true) :
    computeDomain rs =
      (JsNum.finite ((⌊qListMin ((ratePool rs).map JsNum.toQ) * c998⌋ : ℤ) : ℚ),
       JsNum.finite ((⌈qListMax ((ratePool rs).map JsNum.toQ) * c1002⌉ : ℤ) : ℚ)) :=
  computeDomain_finite_eq rs hne hf

/-- C2 witness: with buying rates 4.60 and 4.65 and selling rates 4.85 and
4.90 the domain is min 4, max 5. -/
theorem computeDomain_padding_witness :
    c2batch ≠ [] ∧ (∀ x ∈ ratePool c2batch, x.isFinite = true) ∧
    computeDomain c2batch = (JsNum.finite 4, JsNum.finite 5) := by
  have hne : c2batch ≠ [] := by simp [c2batch]
  have hf : ∀ x ∈ ratePool c2batch, x.isFinite = true := by
    simp [c2batch, ratePool, JsNum.isFinite]
  refine ⟨hne, hf, ?_⟩
  rw [computeDomain_padding c2batch hne hf]
  have hmin : qListMin ((ratePool c2batch).map JsNum.toQ) = 23/5 := by
    norm_num [c2batch, ratePool, qListMin, JsNum.toQ, min_def]
  have hmax : qListMax ((ratePool c2batch).map JsNum.toQ) = 49/10 := by
    norm_num [c2batch, ratePool, qListMax, JsNum.toQ, max_def]
  rw [hmin, hmax]
  have h1 : (⌊(23/5 : ℚ) * c998⌋ : ℤ) = 4 := by
    rw [c998, Int.floor_eq_iff]
    norm_num
  have h2 : (⌈(49/10 : ℚ) * c1002⌉ : ℤ) = 5 := by
    rw [c1002, Int.ceil_eq_iff]
    norm_num
  rw [h1, h2]
  norm_num

/-- C3: the raw record with rates "4.62"/"4.88" and timestamp
2024-03-01T09:05:00Z formats to "Mar-01 09:05" in English and
"3月1日 09:05" in Chinese. -/
theorem formattedTime_example :
    (transform [c3raw]).map (fun r => r.formattedTime) =
      [{ en := "Mar-01 09:05", zh := "3月1日 09:05" }] := by decide

/-- C4 counterexample: on an array containing a record with the
non-numeric buying rate "abc", the transform does not fail — it silently
produces a record whose buying rate is NaN, so the claimed ParseError
behavior is false of the code. -/
theorem parse_silent_nan_counterexample :
    (transform [c4raw]).map (fun r => r.buying_rate) = [JsNum.nan] := by
  decide

/-- C4 (amended): for every input array containing a record with a
non-numeric rate, the transform still succeeds with full length and the
offending record comes through with a NaN rate. -/
theorem transform_keeps_nan_record (raw : List RawRateRecord)
    (item : RawRateRecord) (hmem : item ∈ raw)
    (hnan : parseFloatVal item.buying_rate = JsNum.nan) :
    (transform raw).length = raw.length ∧
    ∃ r ∈ transform raw, r.timestamp = item.timestamp ∧
      r.buying_rate = JsNum.nan := by
  refine ⟨transform_length raw, formatRecord item, ?_, rfl, hnan⟩
  show formatRecord item ∈ (raw.map formatRecord).reverse
  rw [List.mem_reverse]
  exact List.mem_map_of_mem _ hmem

/-- C4 witness: the amended claim evaluated on the concrete "abc" record. -/
theorem transform_keeps_nan_record_witness :
    (transform [c4raw]).length = [c4raw].length ∧
    ∃ r ∈ transform [c4raw], r.timestamp = c4raw.timestamp ∧
      r.buying_rate = JsNum.nan :=
  transform_keeps_nan_record [c4raw] c4raw (by decide) (by decide)

/-- C5 counterexample: on the empty record sequence the domain calculation
yields a pair of non-finite sentinel values instead of reporting any
error, so the claimed EmptyDatasetError behavior is false of the code. -/
theorem computeDomain_empty_counterexample :
    (computeDomain []).1.isFinite = false ∧
    (computeDomain []).2.isFinite = false := by decide

/-- C5 (amended): on the empty record sequence the code's domain
calculation does not crash but silently evaluates to the degenerate
domain (Infinity, -Infinity); the spec's checked contract would instead
report EmptyDatasetError. -/
theorem computeDomain_empty_degenerate :
    computeDomain [] = (JsNum.posInf, JsNum.negInf) ∧
    computeDomainSpec [] = Except.error DomainError.emptyDataset :=
  ⟨rfl, rfl⟩

/-- C6: every response with a non-2xx status makes the fetch step fail
with the status-carrying error, and the page then renders the generic
error panel, never a chart. -/
theorem fetch_non2xx_error_panel (s : ℕ) (body : List RawRateRecord)
    (lang : Lang) (h : statusOk s = false) :
    fetchStep (.response s body) = .error (fetchFailMsg s) ∧
    (getServerSideProps (.response s body)).error = some pageErrorMsg ∧
    CurrencyExchangeGraph (getServerSideProps (.response s body)) lang =
      .errorPanel pageErrorMsg := by
  have e1 : fetchStep (.response s body) = .error (fetchFailMsg s) := by
    simp [fetchStep, h]
  have e2 : getServerSideProps (.response s body) =
      { exchangeData := [], error := some pageErrorMsg } := by
    simp [getServerSideProps, e1]
  refine ⟨e1, by rw [e2], ?_⟩
  rw [e2]
  rfl

/-- C6 witness: status 500 produces the status-carrying fetch error and
the error panel. -/
theorem fetch_non2xx_error_panel_witness :
    statusOk 500 = false ∧
    (fetchStep (.response 500 []) = .error (fetchFailMsg 500) ∧
     (getServerSideProps (.response 500 [])).error = some pageErrorMsg ∧
     CurrencyExchangeGraph (getServerSideProps (.response 500 [])) .en =
       .errorPanel pageErrorMsg) :=
  ⟨by decide, fetch_non2xx_error_panel 500 [] .en (by decide)⟩

/-- C7: on every non-empty batch whose rates are all finite and positive,
the computed domain is a pair of finite integers with min strictly below
max. -/
theorem computeDomain_min_lt_max (rs : List ExchangeRateData)
    (hne : rs ≠ [])
    (hpos : ∀ x ∈ ratePool rs, x.isFinite = true ∧ 0 < x.toQ) :
    ∃ a b : ℤ,
      computeDomain rs = (JsNum.finite (a : ℚ), JsNum.finite (b : ℚ)) ∧
      a < b := by
  have hf : ∀ x ∈ ratePool rs, x.isFinite = true := fun x hx => (hpos x hx).1
  have hp : ratePool rs ≠ [] := ratePool_ne_nil rs hne
  have hmapne : (ratePool rs).map JsNum.toQ ≠ [] := by simpa using hp
  have hmin_mem := qListMin_mem ((ratePool rs).map JsNum.toQ) hmapne
  have hmax_mem := qListMax_mem ((ratePool rs).map JsNum.toQ) hmapne
  have hmin_pos : 0 < qListMin ((ratePool rs).map JsNum.toQ) := by
    rcases List.mem_map.mp hmin_mem with ⟨x, hx, he⟩
    rw [← he]
    exact (hpos x hx).2
  have hminmax : qListMin ((ratePool rs).map JsNum.toQ) ≤
      qListMax ((ratePool rs).map JsNum.toQ) :=
    qListMin_le_of_mem hmax_mem
  have hlt : qListMin ((ratePool rs).map JsNum.toQ) * c998 <
      qListMax ((ratePool rs).map JsNum.toQ) * c1002 := by
    have hc : c998 < c1002 := by norm_num [c998, c1002]
    have h1 := mul_lt_mul_of_pos_left hc hmin_pos
    have h2 : qListMin ((ratePool rs).map JsNum.toQ) * c1002 ≤
        qListMax ((ratePool rs).map JsNum.toQ) * c1002 :=
      mul_le_mul_of_nonneg_right hminmax (by norm_num [c1002])
    exact lt_of_lt_of_le h1 h2
  exact ⟨_, _, computeDomain_finite_eq rs hne hf, floor_lt_ceil_of_lt hlt⟩

/-- C7 witness: the positive-rate example batch has a finite integer
domain with min strictly below max. -/
theorem computeDomain_min_lt_max_witness :
    ∃ a b : ℤ,
      computeDomain c2batch = (JsNum.finite (a : ℚ), JsNum.finite (b : ℚ)) ∧
      a < b :=
  computeDomain_min_lt_max c2batch (by simp [c2batch])
    (by norm_num [c2batch, ratePool, JsNum.isFinite, JsNum.toQ])

/-- C8: the reorder step is a round trip — reversing twice is the
identity — so reversing the transform of an already-chronological array
recovers the mapped records in their original order. -/
theorem reorder_round_trip (l : List ExchangeRateData)
    (raw : List RawRateRecord) :
    reorder (reorder l) = l ∧
    reorder (transform raw) = raw.map formatRecord := by
  constructor
  · simp [reorder]
  · simp [reorder, transform]

/-- C9: whenever `getServerSideProps` returns a non-null error, the
returned `exchangeData` is exactly the empty array. -/
theorem error_implies_empty_data (o : FetchOutcome)
    (h : (getServerSideProps o).error ≠ none) :
    (getServerSideProps o).exchangeData = [] := by
  cases o with
  | networkFailure => rfl
  | response s body =>
    cases hs : statusOk s with
    | true =>
      exact absurd
        (show (getServerSideProps (.response s body)).error = none by
          simp [getServerSideProps, fetchStep, hs]) h
    | false => simp [getServerSideProps, fetchStep, hs]

/-- C9 witness: a network failure yields a non-null error together with
the empty data array. -/
theorem error_implies_empty_data_witness :
    (getServerSideProps .networkFailure).error ≠ none ∧
    (getServerSideProps .networkFailure).exchangeData = [] :=
  ⟨by decide, error_implies_empty_data .networkFailure (by decide)⟩

/-- C10: the language toggle is an involution on the locale state, and any
number of toggles stays within the two locales. -/
theorem toggleLanguage_involution (l : Lang) (n : ℕ) :
    toggleLanguage (toggleLanguage l) = l ∧
    (toggleLanguage^[n] l = Lang.en ∨ toggleLanguage^[n] l = Lang.zh) := by
  constructor
  · cases l <;> rfl
  · cases e : toggleLanguage^[n] l
    · exact Or.inl rfl
    · exact Or.inr rfl
